import Mathlib

/-!
Verification of the NebulaSys `nebula-dnf` package-management layer.

The development shallowly embeds the frontend logic of
`nebula-dnf/src/routes/+page.svelte` and `UninstallModal.svelte`
(state records plus pure transition functions, with the Tauri backend
given as an oracle of reply functions and every `invoke` recorded in an
explicit invocation log), together with the documented package-name
normalizer regex and a model of the concurrency-bounded fetcher.
-/

namespace NebulaSys

/-! ## Name Normalizer

The backend helper `extract_base_package_name` is documented (README,
changelog of October 2023) as matching the anchored regex
`^([a-zA-Z0-9][a-zA-Z0-9._+-]*?)(?:-([0-9].*))?$`
and returning capture group 1, falling through to the unmodified input
when the regex does not match.  The embedding below implements exactly
the backtracking semantics of that pattern: the lazy group 1 stops at
the first position whose remainder is either the end of the input or a
hyphen followed by a digit-initiated, newline-free tail (Rust regex:
`.` does not match a newline and `$` is end of haystack). -/

/-- Character class `[a-zA-Z0-9]` of the regex (ASCII ranges). -/
def isAlnumAscii (c : Char) : Bool :=
  ('a' ≤ c && c ≤ 'z') || ('A' ≤ c && c ≤ 'Z') || ('0' ≤ c && c ≤ '9')

/-- Character class `[a-zA-Z0-9._+-]` of the regex. -/
def isNameChar (c : Char) : Bool :=
  isAlnumAscii c || c = '.' || c = '_' || c = '+' || c = '-'

/-- True when no character of the list is a newline; the tail consumed by
`.*` in the version group must satisfy this. -/
def noNewline (l : List Char) : Bool :=
  l.all (fun c => !(c = '\n'))

/-- Whether the rest of the input can be consumed by `(?:-([0-9].*))?$`
starting at the current position: either the input ends here, or a
hyphen is followed by a digit and a newline-free tail. -/
def versionTailMatch : List Char → Bool
  | [] => true
  | [_] => false
  | c :: d :: tl => c = '-' && d.isDigit && noNewline tl

/-- Lazy scan of group 1 after its mandatory first character: return the
shortest extension of the name such that the remainder matches the
version-tail pattern, or `none` when the whole regex fails. -/
def scanBaseName (rest : List Char) : Option (List Char) :=
  if versionTailMatch rest then some []
  else
    match rest with
    | [] => none
    | c :: tl =>
      if isNameChar c then (scanBaseName tl).map (fun t => c :: t) else none

/-- The Name Normalizer: capture group 1 of
`^([a-zA-Z0-9][a-zA-Z0-9._+-]*?)(?:-([0-9].*))?$` on a match, the
unmodified input on a non-match. -/
def extract_base_package_name (s : String) : String :=
  match s.data with
  | [] => s
  | c :: tl =>
    if isAlnumAscii c then
      match scanBaseName tl with
      | some taken => String.mk (c :: taken)
      | none => s
    else s

/-! ## Frontend data model

Records mirroring the JSDoc typedefs of `+page.svelte` and
`UninstallModal.svelte`.  The Tauri backend is an oracle (`Backend`): a
record of reply functions, one per exposed command; each reply is an
`Except` so that a rejected `invoke` promise is an `Except.error`
carrying the stringified error.  Every `invoke` performed by a
transition is additionally recorded in a returned `Invocation` log so
that theorems can count external queries and inspect their payloads. -/

/-- DisplayablePackage: `{ name }`. -/
structure DisplayablePackage where
  name : String
deriving DecidableEq, Repr

/-- The shape returned by `list_user_installed_packages`:
`{ name, category, dependencies }` (no UI flag yet). -/
structure UserPackageInfo where
  name : String
  category : String
  dependencies : List DisplayablePackage
deriving DecidableEq, Repr

/-- UserPackageWithDependencies after `fetchPackages` added the
`showDependencies` UI flag. -/
structure UserPackage where
  name : String
  category : String
  dependencies : List DisplayablePackage
  showDependencies : Bool
deriving DecidableEq, Repr

/-- An entry of the `packages` array: either a flat
`DisplayablePackage` or an annotated `UserPackageWithDependencies`
(the JS discriminates them with the `dependencies in pkg` property test). -/
inductive Pkg where
  | flat (p : DisplayablePackage)
  | user (p : UserPackage)
deriving DecidableEq, Repr

/-- PackageOperationResultType: `{ success, message, details? }`. -/
structure OperationResult where
  success : Bool
  message : String
  details : Option String
deriving DecidableEq, Repr

/-- The `UninstallMode` string enum of `UninstallModal.svelte`. -/
inductive UninstallMode where
  | Safe
  | Force
  | DryRunSafe
  | DryRunForce
deriving DecidableEq, Repr

/-- The args payload of `execute_package_uninstall`. -/
structure UninstallArgs where
  package_name : String
  mode : UninstallMode
  cleanup_orphans : Bool
deriving DecidableEq, Repr

/-- One recorded `invoke`: the command string plus the argument fields
actually passed (a field is `none` exactly when the corresponding JS
call site passes no such argument). -/
structure Invocation where
  cmd : String
  packageNameArg : Option String
  forceRefreshArg : Option Bool
  uninstallArg : Option UninstallArgs
deriving DecidableEq, Repr

/-- The value of the `packageViewMode` variable. -/
inductive ViewMode where
  | all
  | user
deriving DecidableEq, Repr

/-- One entry of the `packageOpStatus` record. -/
structure OpStatus where
  isLoading : Bool
  message : String
  isError : Bool
  details : Option String
deriving DecidableEq, Repr

/-- The component state of `+page.svelte` that the verified transitions
read or write.  Presentation-only variables (the category filter
dropdown contents, `selectedCategoryFilter`, modal-internal state) are
not fields here; `filteredPackages` takes its reactive inputs as
explicit arguments. -/
structure PageState where
  packages : List Pkg
  errorMessage : String
  isLoading : Bool
  packageViewMode : ViewMode
  searchTerm : String
  cacheUser : Option (List Pkg)
  cacheAll : Option (List Pkg)
  packageOpStatus : String → Option OpStatus
  activeOperationCount : Nat
  isUninstallModalOpen : Bool
  packageForUninstall : String

/-- The Tauri backend oracle: one reply function per exposed command. -/
structure Backend where
  list_user_installed_packages : Bool → Except String (List UserPackageInfo)
  list_installed_packages : Unit → Except String (List DisplayablePackage)
  manage_package_update : String → Except String OperationResult
  execute_package_uninstall : UninstallArgs → Except String OperationResult

/-- The `packageCache` entry for a mode (`packageCache.get(mode)`). -/
def cacheOf (s : PageState) : ViewMode → Option (List Pkg)
  | .user => s.cacheUser
  | .all => s.cacheAll

/-- Transition for `packageCache.set(mode, l)`. -/
def setCache (s : PageState) (m : ViewMode) (l : List Pkg) : PageState :=
  match m with
  | .user => { s with cacheUser := some l }
  | .all => { s with cacheAll := some l }

/-! ## fetchPackages (`+page.svelte`, lines 69 to 115) -/

/-- Transition `fetchPackages(mode, forceRefresh = false)`: guard on in-flight
operations, serve from the session cache unless forced or absent,
otherwise invoke the backend listing command, post-process, and write
through to the cache.  Returns the new state together with the list of
backend invocations issued by this call. -/
def fetchPackages (b : Backend) (mode : ViewMode) (forceRefresh : Bool) (s : PageState) :
    PageState × List Invocation :=
  if 0 < s.activeOperationCount ∧ forceRefresh = false then
    ({ s with errorMessage :=
        "Please wait for ongoing package operations to complete before fetching." }, [])
  else
    let s := { s with isLoading := true, errorMessage := "" }
    match forceRefresh, cacheOf s mode with
    | false, some cached =>
      ({ s with packages := cached, isLoading := false }, [])
    | _, _ =>
      let s := { s with packages := [] }
      match mode with
      | .user =>
        let inv : Invocation :=
          { cmd := "list_user_installed_packages"
            packageNameArg := none
            forceRefreshArg := some forceRefresh
            uninstallArg := none }
        match b.list_user_installed_packages forceRefresh with
        | .ok result =>
          let userPackages := result.map
            (fun pkg => Pkg.user ⟨pkg.name, pkg.category, pkg.dependencies, false⟩)
          ({ s with
              packages := userPackages
              cacheUser := some userPackages
              isLoading := false }, [inv])
        | .error e =>
          ({ s with errorMessage := e, isLoading := false }, [inv])
      | .all =>
        let inv : Invocation :=
          { cmd := "list_installed_packages"
            packageNameArg := none
            forceRefreshArg := none
            uninstallArg := none }
        match b.list_installed_packages () with
        | .ok result =>
          let flat := result.map Pkg.flat
          ({ s with packages := flat, cacheAll := some flat, isLoading := false }, [inv])
        | .error e =>
          ({ s with errorMessage := e, isLoading := false }, [inv])

/-- Transition `refreshCurrentView()`: guard, clear the search term, then force a
refresh of the current view. -/
def refreshCurrentView (b : Backend) (s : PageState) : PageState × List Invocation :=
  if 0 < s.activeOperationCount then
    ({ s with errorMessage :=
        "Please wait for ongoing package operations to complete before refreshing." }, [])
  else
    fetchPackages b s.packageViewMode true { s with searchTerm := "" }

/-! ## Per-package operation status and the update action
(`+page.svelte`, lines 237 to 306) -/

/-- Helper `setPackageOpStatus`: store the status record under the package
name and mirror the `activeOperationCount` bookkeeping
(`if (isLoading) count++; else if (count > 0) count--`). -/
def setPackageOpStatus (s : PageState) (packageName : String) (isLoading : Bool)
    (message : String) (isError : Bool) (details : Option String) : PageState :=
  { s with
    packageOpStatus := fun k =>
      if k = packageName then some ⟨isLoading, message, isError, details⟩
      else s.packageOpStatus k
    activeOperationCount :=
      if isLoading then s.activeOperationCount + 1
      else if 0 < s.activeOperationCount then s.activeOperationCount - 1
      else s.activeOperationCount }

/-- Transition `handlePackageAction(packageName, "update")`: mark the package as
loading, invoke `manage_package_update`, record the outcome in
`packageOpStatus` (synthesizing a failure status from a rejected
invoke), and force-refresh the current view on success.  The deferred
`setTimeout` status cleanup is outside the model (it is a later timer
tick, not part of this transition).  The source returns early for any
action other than update; only the update path is modelled. -/
def handlePackageAction (b : Backend) (packageName : String) (s : PageState) :
    PageState × List Invocation :=
  let s1 := setPackageOpStatus s packageName true
    ("Attempting to update " ++ packageName ++ "...") false none
  let inv : Invocation :=
    { cmd := "manage_package_update"
      packageNameArg := some packageName
      forceRefreshArg := none
      uninstallArg := none }
  match b.manage_package_update packageName with
  | .ok result =>
    let s2 := setPackageOpStatus s1 packageName false
      ((if result.success then "Successfully" else "Problem") ++ " updated " ++
        packageName ++ ". " ++ result.message)
      (!result.success) result.details
    if result.success then
      let fr := fetchPackages b s2.packageViewMode true s2
      (fr.1, inv :: fr.2)
    else
      (s2, [inv])
  | .error e =>
    (setPackageOpStatus s1 packageName false
      ("Error updating " ++ packageName ++ ": " ++ e) true (some e), [inv])

/-- Transition `handleUninstallCompleted()`: close the modal and force-refresh the
current view (fired by the modal only after a non-dry-run success). -/
def handleUninstallCompleted (b : Backend) (s : PageState) : PageState × List Invocation :=
  fetchPackages b s.packageViewMode true
    { s with isUninstallModalOpen := false, packageForUninstall := "" }

/-! ## UninstallModal (`UninstallModal.svelte`) -/

/-- The modal component state read and written by `performOperation`. -/
structure ModalState where
  selectedMode : UninstallMode
  cleanupOrphans : Bool
  isLoading : Bool
  operationResult : Option OperationResult
  dryRunOutput : String
deriving DecidableEq, Repr

/-- Helper `modeForBackend`: a dry run maps the selected mode to its preview
variant (`Safe` to `DryRunSafe`, anything else to `DryRunForce`);
otherwise the selected mode is sent as is. -/
def modeForBackend (isDryRun : Bool) (selectedMode : UninstallMode) : UninstallMode :=
  if isDryRun then
    if selectedMode = UninstallMode.Safe then UninstallMode.DryRunSafe
    else UninstallMode.DryRunForce
  else selectedMode

/-- The `uninstallParameters` object: `cleanup_orphans` is forwarded
only when the backend mode is `Safe` or `DryRunSafe`, else `false`. -/
def uninstallArgsOf (packageName : String) (isDryRun : Bool) (st : ModalState) :
    UninstallArgs :=
  let m := modeForBackend isDryRun st.selectedMode
  { package_name := packageName
    mode := m
    cleanup_orphans :=
      if m = UninstallMode.Safe ∨ m = UninstallMode.DryRunSafe then st.cleanupOrphans
      else false }

/-- JS `a || d` for an optional string: the default replaces both a
missing value and the empty string (both falsy). -/
def jsOrDefault (o : Option String) (d : String) : String :=
  match o with
  | some v => if v = "" then d else v
  | none => d

/-- Transition `performOperation(isDryRun)`: build the args, invoke
`execute_package_uninstall`, and dispatch the outcome.  Returns the new
modal state, the args payload sent to the backend, and whether the
`uninstallCompleted` event is dispatched (the deferred
`setTimeout(dispatch, 500)` of the non-dry-run success branch). -/
def performOperation (b : Backend) (packageName : String) (isDryRun : Bool)
    (st0 : ModalState) : ModalState × UninstallArgs × Bool :=
  let st := { st0 with isLoading := true, operationResult := none, dryRunOutput := "" }
  let args := uninstallArgsOf packageName isDryRun st0
  match b.execute_package_uninstall args with
  | .ok result =>
    if isDryRun then
      ({ st with
          dryRunOutput := jsOrDefault result.details "No specific details from dry run."
          operationResult := some ⟨true, result.message, none⟩
          isLoading := false }, args, false)
    else
      ({ st with operationResult := some result, isLoading := false },
        args, result.success)
  | .error e =>
    ({ st with
        operationResult :=
          some ⟨false, "Failed to invoke uninstall command: " ++ e, some e⟩
        isLoading := false }, args, false)

/-- The reactive statement `$: if (selectedMode === FORCE)
cleanupOrphans = false` of the modal. -/
def reactiveOrphanReset (st : ModalState) : ModalState :=
  if st.selectedMode = UninstallMode.Force then { st with cleanupOrphans := false } else st

/-! ## toggleDependencies and filteredPackages
(`+page.svelte`, lines 176 to 217) -/

/-- The per-element body of the `packages.map` in `toggleDependencies`:
an annotated package with the given name gets its `showDependencies`
flag flipped; every other entry is returned unchanged. -/
def togglePkg (packageName : String) (pkg : Pkg) : Pkg :=
  match pkg with
  | .user p =>
    if p.name = packageName then Pkg.user { p with showDependencies := !p.showDependencies }
    else pkg
  | .flat _ => pkg

/-- Transition `toggleDependencies(packageName)`. -/
def toggleDependencies (packageName : String) (packages : List Pkg) : List Pkg :=
  packages.map (togglePkg packageName)

/-- The `name` of a `packages` entry. -/
def pkgName : Pkg → String
  | .flat p => p.name
  | .user p => p.name

/-- JS `haystack.includes(needle)` on strings: the needle occurs as a
contiguous substring. -/
def strIncludes (haystack needle : String) : Bool :=
  decide (needle.data <:+: haystack.data)

/-- The search predicate of the reactive `filteredPackages` block: the
package name contains the lowered term, or (user view, annotated entry,
dependencies shown) some dependency name contains it. -/
def searchPred (packageViewMode : ViewMode) (lowerSearchTerm : String) (pkg : Pkg) : Bool :=
  if strIncludes (pkgName pkg).toLower lowerSearchTerm then true
  else
    match packageViewMode, pkg with
    | .user, .user p =>
      p.showDependencies &&
        p.dependencies.any (fun dep => strIncludes dep.name.toLower lowerSearchTerm)
    | _, _ => false

/-- JS `String.prototype.trim()`: strip leading and trailing
whitespace (modelled on the character list so that it evaluates). -/
def trimString (s : String) : String :=
  String.mk (((s.data.dropWhile Char.isWhitespace).reverse.dropWhile
    Char.isWhitespace).reverse)

/-- The category filter predicate: `userPkg.category ===
selectedCategoryFilter` (a flat entry has no `category` property, so
the strict comparison with a string is false). -/
def categoryPred (selectedCategoryFilter : String) (pkg : Pkg) : Bool :=
  match pkg with
  | .user p => p.category = selectedCategoryFilter
  | .flat _ => false

/-- The reactive `filteredPackages` value: category filter (user view
only, when not "All Categories") then text search (skipped when the
trimmed term is empty). -/
def filteredPackages (packageViewMode : ViewMode) (selectedCategoryFilter searchTerm : String)
    (packages : List Pkg) : List Pkg :=
  let tempFiltered :=
    if packageViewMode = ViewMode.user ∧ selectedCategoryFilter ≠ "All Categories" then
      packages.filter (categoryPred selectedCategoryFilter)
    else packages
  if trimString searchTerm = "" then tempFiltered
  else tempFiltered.filter (searchPred packageViewMode searchTerm.toLower)

/-! ## Concurrency-Bounded Fetcher

Modelled from the spec: the Rust backend that issues `rpm -qR` queries
through a `tokio::sync::Semaphore` with K permits is not under `src/`
(only the README describes it).  Following the words of the spec, the
scheduler is modelled as successive waves of at most K tasks running
concurrently; each task has a fixed key and a fixed outcome (raw output
or per-task failure), every outcome is collected independently, and no
outcome removes a sibling from the result set. -/

/-- One wave of at most K tasks followed by the waves for the remaining
tasks (the next permit is handed to the next queued task). -/
def semaphoreWaves (K : Nat) (tasks : List α) : List (List α) :=
  match tasks with
  | [] => []
  | t :: ts => (t :: ts.take (K - 1)) :: semaphoreWaves K (ts.drop (K - 1))
termination_by tasks.length
decreasing_by
  simp only [List.length_cons, List.length_drop]
  omega

/-- The collected result set of the bounded fetch: the concatenation of
the per-wave outcomes, in task order. -/
def runBoundedFetch (K : Nat) (tasks : List (String × Except String String)) :
    List (String × Except String String) :=
  (semaphoreWaves K tasks).flatten

/-- Whether a recorded task outcome is a success. -/
def taskSucceeded : Except String String → Bool
  | .ok _ => true
  | .error _ => false

/-! ## Concrete fixtures used by counterexamples and witnesses -/

/-- A sample dependency entry. -/
def demoDep : DisplayablePackage := ⟨"openssl-libs"⟩

/-- A sample annotated package as assembled by `fetchPackages`. -/
def demoUserPkg : UserPackage := ⟨"httpd", "Network", [demoDep], false⟩

/-- A sample flat entry sitting in the all-mode cache. -/
def demoFlatPkg : Pkg := Pkg.flat ⟨"stale-flat-entry"⟩

/-- A backend whose queries and mutations all succeed. -/
def demoBackend : Backend :=
  { list_user_installed_packages := fun _ => .ok [⟨"httpd", "Network", [demoDep]⟩]
    list_installed_packages := fun _ => .ok [⟨"httpd"⟩, ⟨"openssl-libs"⟩]
    manage_package_update := fun _ => .ok ⟨true, "Update complete.", none⟩
    execute_package_uninstall := fun _ => .ok ⟨true, "Removal complete.", none⟩ }

/-- A backend whose every `invoke` rejects. -/
def failBackend : Backend :=
  { list_user_installed_packages := fun _ => .error "query failed"
    list_installed_packages := fun _ => .error "query failed"
    manage_package_update := fun _ => .error "pkexec dismissed"
    execute_package_uninstall := fun _ => .error "pkexec dismissed" }

/-- A quiescent page state with both cache modes warm. -/
def demoState : PageState :=
  { packages := [Pkg.user demoUserPkg]
    errorMessage := ""
    isLoading := false
    packageViewMode := ViewMode.user
    searchTerm := ""
    cacheUser := some [Pkg.user demoUserPkg]
    cacheAll := some [demoFlatPkg]
    packageOpStatus := fun _ => none
    activeOperationCount := 0
    isUninstallModalOpen := false
    packageForUninstall := "" }

/-- The same state while one package operation is in flight. -/
def busyState : PageState :=
  { demoState with activeOperationCount := 1, packages := [] }

/-- A modal state with the safe mode selected. -/
def demoModal : ModalState := ⟨UninstallMode.Safe, false, false, none, ""⟩

/-- A modal state with force mode selected and the orphan checkbox on. -/
def forceModal : ModalState := ⟨UninstallMode.Force, true, false, none, ""⟩

/-- A sample mixed package list. -/
def demoPkgs : List Pkg := [Pkg.user demoUserPkg, demoFlatPkg]

/-- Five fetch tasks of which the third fails. -/
def demoTasks : List (String × Except String String) :=
  [("t1", .ok "out1"), ("t2", .ok "out2"), ("t3", .error "exit 1"),
    ("t4", .ok "out4"), ("t5", .ok "out5")]

/-! ## Theorems -/

example : extract_base_package_name "httpd-2.4.57-1.fc39.x86_64" = "httpd" := by decide
example : extract_base_package_name "bash" = "bash" := by decide
example : extract_base_package_name "a-b-1" = "a-b" := by decide
example : extract_base_package_name "/usr/bin/env" = "/usr/bin/env" := by decide
example : extract_base_package_name "" = "" := by decide

/-- A character of the name class is not a newline. -/
theorem ne_newline_of_isNameChar {c : Char} (h : isNameChar c = true) : c ≠ '\n' := by
  intro hc
  subst hc
  exact absurd h (by decide)

/-- A digit is not a newline. -/
theorem ne_newline_of_isDigit {c : Char} (h : c.isDigit = true) : c ≠ '\n' := by
  intro hc
  subst hc
  exact absurd h (by decide)

/-- A list of name-class characters contains no newline. -/
theorem noNewline_of_all_isNameChar {l : List Char} (h : l.all isNameChar = true) :
    noNewline l = true := by
  simp only [noNewline, List.all_eq_true, Bool.not_eq_true', decide_eq_false_iff_not]
  simp only [List.all_eq_true] at h
  exact fun c hc => ne_newline_of_isNameChar (h c hc)

/-- A remainder accepted by the version-tail pattern contains no newline. -/
theorem noNewline_of_versionTailMatch {rest : List Char} (h : versionTailMatch rest = true) :
    noNewline rest = true := by
  match rest with
  | [] => rfl
  | [c] => exact absurd h (by simp [versionTailMatch])
  | c :: d :: tl =>
    simp only [versionTailMatch, Bool.and_eq_true, decide_eq_true_eq] at h
    obtain ⟨⟨hc, hd⟩, htl⟩ := h
    subst hc
    simp only [noNewline, List.all_cons, Bool.and_eq_true, Bool.not_eq_true',
      decide_eq_false_iff_not] at htl ⊢
    exact ⟨by decide, ne_newline_of_isDigit hd, htl⟩

/-- A successful scan splits the input into the scanned name segment (all
name-class characters) followed by a remainder accepted by the
version-tail pattern. -/
theorem scanBaseName_split {rest taken : List Char} (h : scanBaseName rest = some taken) :
    ∃ rest2, rest = taken ++ rest2 ∧ versionTailMatch rest2 = true ∧
      taken.all isNameChar = true := by
  induction rest generalizing taken with
  | nil =>
    rw [scanBaseName] at h
    simp only [versionTailMatch, if_true, Option.some.injEq] at h
    subst h
    exact ⟨[], rfl, rfl, rfl⟩
  | cons c tl ih =>
    rw [scanBaseName] at h
    split at h
    · rename_i hvt
      simp only [Option.some.injEq] at h
      subst h
      exact ⟨c :: tl, rfl, hvt, rfl⟩
    · rename_i hvt
      split at h
      · rename_i hcls
        obtain ⟨t, ht, rfl⟩ : ∃ t, scanBaseName tl = some t ∧ c :: t = taken := by
          cases hmap : scanBaseName tl with
          | none => rw [hmap] at h; exact absurd h (by simp)
          | some t =>
            rw [hmap] at h
            simp only [Option.map_some', Option.some.injEq] at h
            exact ⟨t, rfl, h⟩
        obtain ⟨rest2, hsplit, hvt2, hall⟩ := ih ht
        refine ⟨rest2, by rw [hsplit]; rfl, hvt2, ?_⟩
        simp [List.all_cons, hcls, hall]
      · exact absurd h (by simp)

/-- The input consumed by a successful scan contains no newline. -/
theorem noNewline_of_scanBaseName {rest taken : List Char} (h : scanBaseName rest = some taken) :
    noNewline rest = true := by
  obtain ⟨rest2, hsplit, hvt, hall⟩ := scanBaseName_split h
  subst hsplit
  have h1 := noNewline_of_all_isNameChar hall
  have h2 := noNewline_of_versionTailMatch hvt
  simp only [noNewline, List.all_append, Bool.and_eq_true] at *
  exact ⟨h1, h2⟩

/-- Scanning the segment produced by a successful scan reproduces that
segment: the lazy matcher finds no earlier stopping point inside it. -/
theorem scanBaseName_idem {rest taken : List Char} (h : scanBaseName rest = some taken) :
    scanBaseName taken = some taken := by
  induction rest generalizing taken with
  | nil =>
    rw [scanBaseName] at h
    simp only [versionTailMatch, if_true, Option.some.injEq] at h
    subst h
    rfl
  | cons c tl ih =>
    rw [scanBaseName] at h
    split at h
    · simp only [Option.some.injEq] at h
      subst h
      rfl
    · rename_i hvt
      split at h
      · rename_i hcls
        obtain ⟨t, ht, rfl⟩ : ∃ t, scanBaseName tl = some t ∧ c :: t = taken := by
          cases hmap : scanBaseName tl with
          | none => rw [hmap] at h; exact absurd h (by simp)
          | some t =>
            rw [hmap] at h
            simp only [Option.map_some', Option.some.injEq] at h
            exact ⟨t, rfl, h⟩
        have iht := ih ht
        have hvt2 : versionTailMatch (c :: t) = false := by
          cases t with
          | nil => rfl
          | cons d t2 =>
            by_contra hne
            rw [Bool.not_eq_false] at hne
            simp only [versionTailMatch, Bool.and_eq_true, decide_eq_true_eq] at hne
            obtain ⟨⟨hc, hd⟩, ht2⟩ := hne
            obtain ⟨tl2, htl2, h2⟩ : ∃ tl2, tl = d :: tl2 ∧ scanBaseName tl2 = some t2 := by
              cases tl with
              | nil =>
                rw [scanBaseName] at ht
                simp [versionTailMatch] at ht
              | cons d0 tl0 =>
                rw [scanBaseName] at ht
                split at ht
                · simp only [Option.some.injEq] at ht
                  simp at ht
                · split at ht
                  · rename_i hcls0
                    cases hmap : scanBaseName tl0 with
                    | none => rw [hmap] at ht; exact absurd ht (by simp)
                    | some t0 =>
                      rw [hmap] at ht
                      simp only [Option.map_some', Option.some.injEq, List.cons.injEq] at ht
                      obtain ⟨rfl, rfl⟩ := ht
                      exact ⟨tl0, rfl, hmap⟩
                  · exact absurd ht (by simp)
            have hnn : noNewline tl2 = true := noNewline_of_scanBaseName h2
            have hvtc : versionTailMatch (c :: tl) = true := by
              rw [htl2]
              simp [versionTailMatch, hc, hd, hnn]
            rw [hvtc] at hvt
            exact absurd hvt (by simp)
        rw [scanBaseName, hvt2]
        simp only [if_false, Bool.false_eq_true]
        rw [if_pos hcls, iht]
        rfl
      · exact absurd h (by simp)

/-- C7: the Name Normalizer `extract_base_package_name`, implemented by
the regex with fall-through to the unmodified input on a non-match, is
idempotent: normalizing twice equals normalizing once, for every input
string. -/
theorem C7_normalizer_idempotent (x : String) :
    extract_base_package_name (extract_base_package_name x) =
      extract_base_package_name x := by
  have key : extract_base_package_name x = x ∨
      ∃ c taken, extract_base_package_name x = String.mk (c :: taken) ∧
        isAlnumAscii c = true ∧ scanBaseName taken = some taken := by
    obtain ⟨l⟩ := x
    cases l with
    | nil => left; rfl
    | cons c tl =>
      by_cases hA : isAlnumAscii c = true
      · cases hscan : scanBaseName tl with
        | none => left; simp [extract_base_package_name, hA, hscan]
        | some taken =>
          right
          exact ⟨c, taken, by simp [extract_base_package_name, hA, hscan], hA,
            scanBaseName_idem hscan⟩
      · left
        simp [extract_base_package_name, hA]
  rcases key with h | ⟨c, taken, heq, hA, hscan⟩
  · rw [h]
    exact h
  · rw [heq]
    simp [extract_base_package_name, hA, hscan]

/-! ### Cache behaviour of the query facade (C1, C2, C6) -/

/-- Transition `fetchPackages` never touches the per-package operation status map. -/
theorem fetchPackages_opStatus (b : Backend) (mode : ViewMode) (force : Bool) (s : PageState) :
    (fetchPackages b mode force s).1.packageOpStatus = s.packageOpStatus := by
  unfold fetchPackages
  split
  · rfl
  · cases mode with
    | all =>
      cases force with
      | false =>
        cases hca : s.cacheAll with
        | none =>
          simp only [cacheOf, hca]
          cases hb : b.list_installed_packages () <;> rfl
        | some la => simp only [cacheOf, hca]
      | true =>
        cases hca : s.cacheAll with
        | none =>
          simp only [cacheOf, hca]
          cases hb : b.list_installed_packages () <;> rfl
        | some la =>
          simp only [cacheOf, hca]
          cases hb : b.list_installed_packages () <;> rfl
    | user =>
      cases force with
      | false =>
        cases hcu : s.cacheUser with
        | none =>
          simp only [cacheOf, hcu]
          cases hb : b.list_user_installed_packages false <;> rfl
        | some lu => simp only [cacheOf, hcu]
      | true =>
        cases hcu : s.cacheUser with
        | none =>
          simp only [cacheOf, hcu]
          cases hb : b.list_user_installed_packages true <;> rfl
        | some lu =>
          simp only [cacheOf, hcu]
          cases hb : b.list_user_installed_packages true <;> rfl

/-- C2 amended: with `forceRefresh = false` and a warm user-mode cache,
`fetchPackages` issues zero backend invocations, and when no package
operation is in flight it returns the cached packages. -/
theorem C2_warm_cache_serves (b : Backend) (s : PageState) (l : List Pkg)
    (hc : s.cacheUser = some l) :
    (fetchPackages b ViewMode.user false s).2 = [] ∧
    (s.activeOperationCount = 0 →
      (fetchPackages b ViewMode.user false s).1.packages = l) := by
  unfold fetchPackages
  by_cases h0 : 0 < s.activeOperationCount ∧ (false : Bool) = false
  · rw [if_pos h0]
    exact ⟨rfl, fun hz => absurd h0.1 (by omega)⟩
  · rw [if_neg h0]
    simp only [cacheOf, hc]
    exact ⟨trivial, fun _ => trivial⟩

/-- C2 witness: on the quiescent warm demo state the user listing with
`forceRefresh = false` performs no invoke and returns the cached
snapshot. -/
theorem C2_witness :
    (fetchPackages demoBackend ViewMode.user false demoState).2 = [] ∧
    (fetchPackages demoBackend ViewMode.user false demoState).1.packages =
      [Pkg.user demoUserPkg] := by
  have h := C2_warm_cache_serves demoBackend demoState [Pkg.user demoUserPkg] rfl
  exact ⟨h.1, h.2 rfl⟩

/-- C2 is false as stated: with a warm user cache and
`forceRefresh = false` but a package operation in flight, the call
returns early with an error message and does not return the cached
packages (it does still issue zero invocations). -/
theorem C2_counterexample :
    busyState.cacheUser = some [Pkg.user demoUserPkg] ∧
    (fetchPackages demoBackend ViewMode.user false busyState).1.packages = [] ∧
    (fetchPackages demoBackend ViewMode.user false busyState).1.packages ≠
      [Pkg.user demoUserPkg] ∧
    (fetchPackages demoBackend ViewMode.user false busyState).2 = [] := by
  refine ⟨rfl, rfl, ?_, rfl⟩
  intro h
  simp [fetchPackages, busyState, demoState] at h

/-- C6 amended: the all-mode fetch honours `forceRefresh` against the
session cache and issues exactly one `list_installed_packages`
invocation on a live fetch, but that invocation carries no
`forceRefresh` argument (the JS invokes the command
with no payload, unlike the user-mode call). -/
theorem C6_listAll_contract (b : Backend) (s : PageState) (force : Bool) (l : List Pkg)
    (h0 : s.activeOperationCount = 0) :
    (force = false → s.cacheAll = some l →
      (fetchPackages b ViewMode.all force s).1.packages = l ∧
      (fetchPackages b ViewMode.all force s).2 = []) ∧
    ((force = true ∨ s.cacheAll = none) →
      (fetchPackages b ViewMode.all force s).2 =
        [⟨"list_installed_packages", none, none, none⟩]) := by
  have hg : ¬ (0 < s.activeOperationCount ∧ force = false) := by
    rintro ⟨h, _⟩
    omega
  constructor
  · rintro rfl hca
    unfold fetchPackages
    rw [if_neg hg]
    simp only [cacheOf, hca]
    exact ⟨trivial, trivial⟩
  · intro hfetch
    unfold fetchPackages
    rw [if_neg hg]
    rcases hfetch with rfl | hca
    · cases hca : s.cacheAll <;>
        simp only [cacheOf, hca] <;>
        cases hb : b.list_installed_packages () <;> rfl
    · cases force <;>
        simp only [cacheOf, hca] <;>
        cases hb : b.list_installed_packages () <;> rfl

/-- C6 witness: a forced all-mode refresh on the demo state issues
exactly one `list_installed_packages` invocation. -/
theorem C6_witness :
    (fetchPackages demoBackend ViewMode.all true demoState).2 =
      [⟨"list_installed_packages", none, none, none⟩] :=
  (C6_listAll_contract demoBackend demoState true [demoFlatPkg] rfl).2 (Or.inl rfl)

/-- C6 is false as stated: the single invocation of a forced all-mode
fetch carries no `forceRefresh` field at all, so the caller flag
(`true`) does not accompany the `listAll` invocation. -/
theorem C6_counterexample :
    ((fetchPackages demoBackend ViewMode.all true demoState).2).map
        (fun i => (i.cmd, i.forceRefreshArg)) = [("list_installed_packages", none)] ∧
    (none : Option Bool) ≠ some true := by
  exact ⟨rfl, by simp⟩

/-- C1 evaluated at the failing input: an update of "httpd" succeeds
while the user view is active and both cache modes are warm; the
handler force-refreshes only the user mode, the all-mode cache entry
survives, and the next all-mode fetch serves that stale snapshot with
zero backend invocations instead of performing a live fetch. -/
theorem C1_stale_all_cache_after_update :
    ((handlePackageAction demoBackend "httpd" demoState).1).cacheAll = some [demoFlatPkg] ∧
    (fetchPackages demoBackend ViewMode.all false
        (handlePackageAction demoBackend "httpd" demoState).1).2 = [] ∧
    (fetchPackages demoBackend ViewMode.all false
        (handlePackageAction demoBackend "httpd" demoState).1).1.packages =
      [demoFlatPkg] := by
  exact ⟨rfl, rfl, rfl⟩

/-! ### The uninstall modal (C3, C4, C5) -/

/-- The args payload sent by `performOperation` does not depend on the
backend reply. -/
theorem performOperation_args (b : Backend) (n : String) (dry : Bool) (st : ModalState) :
    (performOperation b n dry st).2.1 = uninstallArgsOf n dry st := by
  unfold performOperation
  cases hb : b.execute_package_uninstall (uninstallArgsOf n dry st) with
  | ok r =>
    cases dry <;> simp [hb]
  | error e => simp [hb]

/-- C3: a dry-run uninstall always sends a preview mode variant
(`DryRunSafe` or `DryRunForce`) to the backend, never the non-preview
`Safe` or `Force` removal command; it never dispatches the
`uninstallCompleted` event (the only path that refreshes the page
cache), and on a successful invoke it surfaces the details field of the
reply as the dry-run preview text, recording a result whose own details
are null. -/
theorem C3_dry_run_preview (b : Backend) (packageName : String) (st : ModalState) :
    ((performOperation b packageName true st).2.1.mode = UninstallMode.DryRunSafe ∨
      (performOperation b packageName true st).2.1.mode = UninstallMode.DryRunForce) ∧
    (performOperation b packageName true st).2.1.mode ≠ UninstallMode.Safe ∧
    (performOperation b packageName true st).2.1.mode ≠ UninstallMode.Force ∧
    (performOperation b packageName true st).2.2 = false ∧
    (∀ r, b.execute_package_uninstall (uninstallArgsOf packageName true st) = Except.ok r →
      (performOperation b packageName true st).1.dryRunOutput =
        jsOrDefault r.details "No specific details from dry run." ∧
      (performOperation b packageName true st).1.operationResult =
        some ⟨true, r.message, none⟩) := by
  have hargs := performOperation_args b packageName true st
  have hmode : (uninstallArgsOf packageName true st).mode =
      modeForBackend true st.selectedMode := rfl
  refine ⟨?_, ?_, ?_, ?_, ?_⟩
  · rw [hargs, hmode]
    unfold modeForBackend
    by_cases h : st.selectedMode = UninstallMode.Safe
    · left
      simp [h]
    · right
      simp [h]
  · rw [hargs, hmode]
    unfold modeForBackend
    by_cases h : st.selectedMode = UninstallMode.Safe <;> simp [h]
  · rw [hargs, hmode]
    unfold modeForBackend
    by_cases h : st.selectedMode = UninstallMode.Safe <;> simp [h]
  · unfold performOperation
    cases hb : b.execute_package_uninstall (uninstallArgsOf packageName true st) with
    | ok r => simp [hb]
    | error e => simp [hb]
  · intro r hr
    unfold performOperation
    dsimp only
    rw [hr]
    exact ⟨rfl, rfl⟩

/-- C3 witness: a dry run in safe mode against the demo backend sends
`DryRunSafe`, dispatches no completion event, and surfaces the default
preview text because the reply has no details. -/
theorem C3_witness :
    (performOperation demoBackend "httpd" true demoModal).2.1.mode =
      UninstallMode.DryRunSafe ∧
    (performOperation demoBackend "httpd" true demoModal).2.2 = false ∧
    (performOperation demoBackend "httpd" true demoModal).1.dryRunOutput =
      "No specific details from dry run." := by
  have h := C3_dry_run_preview demoBackend "httpd" demoModal
  have hd := h.2.2.2.2 ⟨true, "Removal complete.", none⟩ rfl
  exact ⟨rfl, h.2.2.2.1, hd.1⟩

/-- C4: every mutation path produces a fully formed operation result.
The modal always ends with `operationResult` populated and synthesizes
a failure carrying the invocation error as details when the invoke
rejects; the update handler always leaves a resolved status record for
the package and synthesizes an error status carrying the invocation
error when the invoke rejects. -/
theorem C4_mutation_results_wellformed (b : Backend) (n : String) (st : ModalState)
    (s : PageState) (dry : Bool) :
    ((performOperation b n dry st).1.operationResult.isSome = true) ∧
    (∀ e, b.execute_package_uninstall (uninstallArgsOf n dry st) = Except.error e →
      (performOperation b n dry st).1.operationResult =
        some ⟨false, "Failed to invoke uninstall command: " ++ e, some e⟩) ∧
    (((handlePackageAction b n s).1.packageOpStatus n).isSome = true) ∧
    (∀ e, b.manage_package_update n = Except.error e →
      (handlePackageAction b n s).1.packageOpStatus n =
        some ⟨false, "Error updating " ++ n ++ ": " ++ e, true, some e⟩) := by
  refine ⟨?_, ?_, ?_, ?_⟩
  · unfold performOperation
    cases hb : b.execute_package_uninstall (uninstallArgsOf n dry st) with
    | ok r => cases dry <;> simp [hb]
    | error e => simp [hb]
  · intro e he
    unfold performOperation
    dsimp only
    rw [he]
  · unfold handlePackageAction
    cases hb : b.manage_package_update n with
    | ok r =>
      cases hs : r.success with
      | false => simp [hs, setPackageOpStatus]
      | true =>
        simp only [hs, if_true]
        rw [fetchPackages_opStatus]
        simp [setPackageOpStatus]
    | error e => simp [setPackageOpStatus]
  · intro e he
    unfold handlePackageAction
    dsimp only
    rw [he]
    simp [setPackageOpStatus]

/-- C4 witness: with a backend whose invokes all reject, both the
uninstall modal and the update handler synthesize failure results
carrying the stringified error as details. -/
theorem C4_witness :
    (performOperation failBackend "httpd" false demoModal).1.operationResult =
      some ⟨false, "Failed to invoke uninstall command: " ++ "pkexec dismissed",
        some "pkexec dismissed"⟩ ∧
    (handlePackageAction failBackend "httpd" demoState).1.packageOpStatus "httpd" =
      some ⟨false, "Error updating " ++ "httpd" ++ ": " ++ "pkexec dismissed", true,
        some "pkexec dismissed"⟩ := by
  have h := C4_mutation_results_wellformed failBackend "httpd" demoModal demoState false
  exact ⟨h.2.1 "pkexec dismissed" rfl, h.2.2.2 "pkexec dismissed" rfl⟩

/-- C5: whenever the effective backend mode of an uninstall is `Force`
or `DryRunForce`, the `cleanup_orphans` field sent to the backend is
`false`, regardless of the checkbox value in the modal state. -/
theorem C5_cleanup_orphans_only_safe (b : Backend) (n : String) (dry : Bool) (st : ModalState)
    (h : (performOperation b n dry st).2.1.mode = UninstallMode.Force ∨
      (performOperation b n dry st).2.1.mode = UninstallMode.DryRunForce) :
    (performOperation b n dry st).2.1.cleanup_orphans = false := by
  rw [performOperation_args] at h ⊢
  have hcl : (uninstallArgsOf n dry st).cleanup_orphans =
      if modeForBackend dry st.selectedMode = UninstallMode.Safe ∨
          modeForBackend dry st.selectedMode = UninstallMode.DryRunSafe
        then st.cleanupOrphans else false := rfl
  have hm : (uninstallArgsOf n dry st).mode = modeForBackend dry st.selectedMode := rfl
  rw [hm] at h
  rw [hcl]
  rcases h with h | h <;> rw [h] <;> simp

/-- C5 witness: a non-dry-run force uninstall with the orphan checkbox
set still sends `cleanup_orphans = false`. -/
theorem C5_witness :
    forceModal.cleanupOrphans = true ∧
    (performOperation demoBackend "httpd" false forceModal).2.1.cleanup_orphans = false :=
  ⟨rfl, C5_cleanup_orphans_only_safe demoBackend "httpd" false forceModal (Or.inl rfl)⟩

/-! ### Concurrency-bounded fetcher (C8) -/

/-- The waves flatten back to the original task list: every outcome is
collected, in task order. -/
theorem semaphoreWaves_flatten (K : Nat) (tasks : List α) :
    (semaphoreWaves K tasks).flatten = tasks := by
  have main : ∀ (fuel : Nat) (l : List α), l.length ≤ fuel →
      (semaphoreWaves K l).flatten = l := by
    intro fuel
    induction fuel with
    | zero =>
      intro l h
      have hl : l = [] := List.length_eq_zero.mp (Nat.le_zero.mp h)
      subst hl
      simp [semaphoreWaves]
    | succ m ih =>
      intro l h
      cases l with
      | nil => simp [semaphoreWaves]
      | cons t ts =>
        have hlen : (ts.drop (K - 1)).length ≤ m := by
          simp only [List.length_drop]
          simp only [List.length_cons] at h
          omega
        rw [semaphoreWaves, List.flatten_cons, ih _ hlen, List.cons_append,
          List.take_append_drop]
  exact main tasks.length tasks (Nat.le_refl _)

/-- With a positive permit count K, no wave holds more than K tasks. -/
theorem semaphoreWaves_length_le (K : Nat) (hK : 0 < K) (tasks : List α) :
    ∀ w ∈ semaphoreWaves K tasks, w.length ≤ K := by
  have main : ∀ (fuel : Nat) (l : List α), l.length ≤ fuel →
      ∀ w ∈ semaphoreWaves K l, w.length ≤ K := by
    intro fuel
    induction fuel with
    | zero =>
      intro l h w hw
      have hl : l = [] := List.length_eq_zero.mp (Nat.le_zero.mp h)
      subst hl
      simp [semaphoreWaves] at hw
    | succ m ih =>
      intro l h w hw
      cases l with
      | nil => simp [semaphoreWaves] at hw
      | cons t ts =>
        rw [semaphoreWaves] at hw
        simp only [List.mem_cons] at hw
        rcases hw with rfl | hw
        · simp only [List.length_cons, List.length_take]
          omega
        · have hlen : (ts.drop (K - 1)).length ≤ m := by
            simp only [List.length_drop]
            simp only [List.length_cons] at h
            omega
          exact ih (ts.drop (K - 1)) hlen w hw
  exact main tasks.length tasks (Nat.le_refl _)

/-- C8: the bounded fetcher runs any task set in waves of at most K
tasks in flight, collects every outcome (output or per-task failure)
independently and in task order, and one failing task removes no
sibling: the success count of the result set equals that of the task
set and every recorded outcome is present. -/
theorem C8_bounded_fetcher (K : Nat) (hK : 0 < K)
    (tasks : List (String × Except String String)) :
    (∀ w ∈ semaphoreWaves K tasks, w.length ≤ K) ∧
    runBoundedFetch K tasks = tasks ∧
    (runBoundedFetch K tasks).countP (fun t => taskSucceeded t.2) =
      tasks.countP (fun t => taskSucceeded t.2) ∧
    ∀ t ∈ tasks, t ∈ runBoundedFetch K tasks := by
  have hrun : runBoundedFetch K tasks = tasks := semaphoreWaves_flatten K tasks
  refine ⟨semaphoreWaves_length_le K hK tasks, hrun, ?_, ?_⟩
  · rw [hrun]
  · intro t ht
    rw [hrun]
    exact ht

/-- C8 witness: K = 2 over the five demo tasks with the third failing
gives all five outcomes back (four successes, one recorded failure) in
waves of sizes 2, 2, 1. -/
theorem C8_witness :
    runBoundedFetch 2 demoTasks = demoTasks ∧
    (runBoundedFetch 2 demoTasks).countP (fun t => taskSucceeded t.2) = 4 ∧
    (runBoundedFetch 2 demoTasks).length = 5 ∧
    (semaphoreWaves 2 demoTasks).map List.length = [2, 2, 1] := by
  have h := C8_bounded_fetcher 2 (by decide) demoTasks
  refine ⟨h.2.1, ?_, ?_, ?_⟩
  · rw [h.2.1]
    decide
  · rw [h.2.1]
    decide
  · simp [demoTasks, semaphoreWaves]

/-! ### View filtering and dependency toggling (C9, C10) -/

/-- C9: for every package list and filter state, `filteredPackages` is
a sublist (subsequence) of `packages` — filtering never adds,
duplicates or reorders entries — and with a blank (whitespace-only)
search term and the "All Categories" filter it returns `packages`
itself. -/
theorem C9_filteredPackages_sublist (mode : ViewMode) (cat term : String)
    (packages : List Pkg) :
    List.Sublist (filteredPackages mode cat term packages) packages ∧
    (trimString term = "" → cat = "All Categories" →
      filteredPackages mode cat term packages = packages) := by
  unfold filteredPackages
  dsimp only
  constructor
  · have htemp :
        List.Sublist
          (if mode = ViewMode.user ∧ cat ≠ "All Categories"
            then packages.filter (categoryPred cat) else packages) packages := by
      split
      · exact List.filter_sublist packages
      · exact List.Sublist.refl packages
    split
    · exact htemp
    · exact (List.filter_sublist _).trans htemp
  · intro ht hc
    rw [if_pos ht, if_neg]
    rintro ⟨_, hne⟩
    exact hne hc

/-- C9 witness: a blank search and the "All Categories" filter leave
the demo list unchanged. -/
theorem C9_witness :
    filteredPackages ViewMode.user "All Categories" "   " demoPkgs = demoPkgs :=
  (C9_filteredPackages_sublist ViewMode.user "All Categories" "   " demoPkgs).2
    (by decide) rfl

/-- Toggling one entry twice restores it. -/
theorem togglePkg_involutive (n : String) (p : Pkg) : togglePkg n (togglePkg n p) = p := by
  cases p with
  | flat q => rfl
  | user q =>
    obtain ⟨nm, cat, deps, sd⟩ := q
    by_cases h : nm = n
    · cases sd <;> simp [togglePkg, h]
    · simp [togglePkg, h]

/-- C10: `toggleDependencies(n)` applied twice returns the packages
list to its original value; one application preserves length and acts
pointwise (position i of the result is `togglePkg n` of position i),
and pointwise every entry is either returned unchanged or is an
annotated package named n whose only changed field is the negated
`showDependencies` flag. -/
theorem C10_toggle_involution_frame (n : String) (l : List Pkg) :
    toggleDependencies n (toggleDependencies n l) = l ∧
    (toggleDependencies n l).length = l.length ∧
    (∀ i, (toggleDependencies n l).getD i (Pkg.flat ⟨""⟩) =
      togglePkg n (l.getD i (Pkg.flat ⟨""⟩))) ∧
    (∀ p : Pkg, togglePkg n p = p ∨
      ∃ q : UserPackage, p = Pkg.user q ∧ q.name = n ∧
        togglePkg n p =
          Pkg.user ⟨q.name, q.category, q.dependencies, !q.showDependencies⟩) := by
  refine ⟨?_, ?_, ?_, ?_⟩
  · induction l with
    | nil => rfl
    | cons p rest ih =>
      show togglePkg n (togglePkg n p) :: toggleDependencies n (toggleDependencies n rest)
          = p :: rest
      rw [togglePkg_involutive, ih]
  · simp [toggleDependencies]
  · intro i
    induction l generalizing i with
    | nil => cases i <;> rfl
    | cons p rest ih =>
      cases i with
      | zero => rfl
      | succ j => exact ih j
  · intro p
    cases p with
    | flat q => exact Or.inl rfl
    | user q =>
      by_cases h : q.name = n
      · exact Or.inr ⟨q, rfl, h, by simp [togglePkg, h]⟩
      · exact Or.inl (by simp [togglePkg, h])

end NebulaSys
